import Mathlib

set_option maxHeartbeats 1000000

/- Verification of the chunked SQL-to-spreadsheet export script
   (sql_export.py).  The script's data model, its two per-chunk
   sanitization paths, its chunked export loop, its configuration-file
   handling, its writer and its resource/error discipline are embedded
   below as executable Lean definitions, translated statement by
   statement from the source. -/

namespace SqlExport

/-- A database cell as fetched by the cursor: a text value, a number,
or SQL NULL (Python None). -/
inductive Value where
  | text (s : String)
  | num (q : Int)
  | null
  deriving DecidableEq

/-- The control character U+001F that the sanitizer strips. -/
def usChar : Char := Char.ofNat 31

/-- Removal of every occurrence of U+001F from a character list, as in
Python str.replace of a one-character pattern by the empty string. -/
def stripList : List Char → List Char
  | [] => []
  | c :: cs => if c = usChar then stripList cs else c :: stripList cs

/-- str.replace of U+001F by the empty string, lifted to strings. -/
def stripUS (s : String) : String := String.mk (stripList s.data)

/-- Python str() of a cell, as applied cell-wise by astype(str):
None prints as the four-character string None. -/
def pyStr : Value → String
  | Value.text s => s
  | Value.num q => toString q
  | Value.null => "None"

def isTextV : Value → Bool
  | Value.text _ => true
  | _ => false

def isNullV : Value → Bool
  | Value.null => true
  | _ => false

/-- Column classification as pandas infers a dtype from the observed
values of the column: the dtype is object (text-like) iff the column
holds at least one string, or holds only nulls; a column of numbers,
with or without nulls, gets a numeric dtype. -/
def isObjectCol (cells : List Value) : Bool :=
  cells.any isTextV || cells.all isNullV

/-- fillna on a single cell: the default for an object column is the
empty string, the default for a numeric column is 0; non-null cells are
left unchanged. -/
def fillCell (obj : Bool) (v : Value) : Value :=
  match v with
  | Value.null => if obj then Value.text "" else Value.num 0
  | v => v

/-- One cell on the full-chunk sanitization path (also the single-file
path): an object column is passed through astype(str) and then has
U+001F stripped, so every cell of it becomes a string and no null
survives to the later fillna; a numeric column is filled with 0. -/
def sanitizeCellFull (obj : Bool) (v : Value) : Value :=
  if obj then Value.text (stripUS (pyStr v)) else fillCell false v

/-- The applymap lambda of the trailing-chunk path: strip U+001F from
every cell that is a str instance and leave every other cell, nulls
included, unchanged. -/
def stripCellTail : Value → Value
  | Value.text s => Value.text (stripUS s)
  | v => v

/-- The cells of column i of a row list. -/
def colCells (rows : List (List Value)) (i : Nat) : List Value :=
  rows.map (fun r => r.getD i Value.null)

/-- Per-column object flags of a chunk, inferred from the observed
values, one flag per column. -/
def objFlags (ncols : Nat) (rows : List (List Value)) : List Bool :=
  (List.range ncols).map (fun i => isObjectCol (colCells rows i))

/-- Sanitizer of the single-file path and of every full chunk of the
multi-file path: per object column astype(str) plus strip of U+001F,
then fillna (empty string for object columns, 0 for numeric ones). -/
def sanitizeChunkFull (ncols : Nat) (rows : List (List Value)) : List (List Value) :=
  rows.map (fun r => List.zipWith sanitizeCellFull (objFlags ncols rows) r)

/-- Sanitizer of the trailing chunk of the multi-file path: applymap
that strips U+001F from str instances only, then fillna keyed to the
dtypes observed after that applymap. -/
def sanitizeChunkTail (ncols : Nat) (rows : List (List Value)) : List (List Value) :=
  (rows.map (fun r => r.map stripCellTail)).map
    (fun r => List.zipWith fillCell
      (objFlags ncols (rows.map (fun r => r.map stripCellTail))) r)

lemma stripList_eq_filter (l : List Char) :
    stripList l = l.filter (fun c => !(c == usChar)) := by
  induction l with
  | nil => rfl
  | cons c cs ih =>
      by_cases h : c = usChar
      · simp [stripList, h, ih]
      · simp [stripList, h, ih]

lemma sanitizeChunkFull_length (n : Nat) (rows : List (List Value)) :
    (sanitizeChunkFull n rows).length = rows.length := by
  simp [sanitizeChunkFull]

lemma sanitizeChunkTail_length (n : Nat) (rows : List (List Value)) :
    (sanitizeChunkTail n rows).length = rows.length := by
  simp [sanitizeChunkTail]

/-- C5: for any text value in a text-typed column, the sanitized value
contains exactly 0 occurrences of the control character U+001F and is
otherwise unchanged: its characters are exactly the non-U+001F
characters of the original, in order.  Both sanitization paths apply
exactly this strip to text cells of object columns, and the transform
is a total function with no error outcome. -/
theorem C5_stripControlChar (s : String) :
    (stripUS s).data.count usChar = 0 ∧
    (stripUS s).data = s.data.filter (fun c => !(c == usChar)) ∧
    sanitizeCellFull true (Value.text s) = Value.text (stripUS s) ∧
    fillCell true (stripCellTail (Value.text s)) = Value.text (stripUS s) := by
  refine ⟨?_, ?_, rfl, rfl⟩
  · rw [show (stripUS s).data = stripList s.data from rfl, stripList_eq_filter,
      List.count_eq_zero]
    intro hmem
    have h := List.mem_filter.mp hmem
    simp at h
  · rw [show (stripUS s).data = stripList s.data from rfl, stripList_eq_filter]

/-- C4: the claim says every null cell of an object (text-like) column
is replaced by the empty string.  On the full-chunk path the code
applies astype(str) before its fillna, so a null in a text column is
exported as the literal string None, not as the empty string — the
trailing-chunk path, and the code's own comments on both paths, produce
or promise the empty string.  The numeric half of the claim (null
becomes 0) does hold.  This theorem evaluates both paths at such a
chunk. -/
theorem C4_nullFill_on_full_chunks :
    sanitizeChunkFull 1 [[Value.text "x"], [Value.null]]
      = [[Value.text "x"], [Value.text "None"]] ∧
    sanitizeChunkTail 1 [[Value.text "x"], [Value.null]]
      = [[Value.text "x"], [Value.text ""]] ∧
    Value.text "None" ≠ Value.text "" ∧
    sanitizeCellFull false Value.null = Value.num 0 ∧
    fillCell true Value.null = Value.text "" := by
  refine ⟨by decide, by decide, by decide, by decide, by decide⟩

/-- C10: the sanitization applied to full chunks (and in single-file
mode) and the sanitization applied to the trailing chunk are not
equivalent: the full path coerces every cell of an object column to a
string before stripping U+001F (nulls become the literal string None,
numbers in object columns are stringified), while the trailing path
strips only cells that are str instances and leaves non-string cells,
nulls included, unmodified by the stripping step; on a chunk holding a
single null cell the two paths disagree. -/
theorem C10_paths_inequivalent :
    (∀ v : Value, sanitizeCellFull true v = Value.text (stripUS (pyStr v))) ∧
    pyStr Value.null = "None" ∧
    (∀ q : Int, pyStr (Value.num q) = toString q) ∧
    stripCellTail Value.null = Value.null ∧
    (∀ q : Int, stripCellTail (Value.num q) = Value.num q) ∧
    sanitizeChunkFull 1 [[Value.null]] = [[Value.text "None"]] ∧
    sanitizeChunkTail 1 [[Value.null]] = [[Value.text ""]] ∧
    sanitizeChunkFull 1 [[Value.null]] ≠ sanitizeChunkTail 1 [[Value.null]] := by
  refine ⟨fun v => rfl, rfl, fun q => rfl, rfl, fun q => rfl, by decide, by decide, by decide⟩

/-- Lookup of a path in a small association-list filesystem. -/
def fsFind {α : Type} : List (String × α) → String → Option α
  | [], _ => none
  | e :: fs, p => if e.1 = p then some e.2 else fsFind fs p

/-- Write (create or overwrite) a path in the filesystem. -/
def fsSet {α : Type} : List (String × α) → String → α → List (String × α)
  | [], p, v => [(p, v)]
  | e :: fs, p, v => if e.1 = p then (p, v) :: fs else e :: fsSet fs p v

lemma fsFind_fsSet_same {α : Type} (fs : List (String × α)) (p : String) (v : α) :
    fsFind (fsSet fs p v) p = some v := by
  induction fs with
  | nil => simp [fsFind, fsSet]
  | cons e fs ih =>
      by_cases h : e.1 = p
      · simp [fsFind, fsSet, h]
      · simp [fsFind, fsSet, h, ih]

lemma fsFind_fsSet_other {α : Type} (fs : List (String × α)) (p q : String) (v : α)
    (h : q ≠ p) : fsFind (fsSet fs p v) q = fsFind fs q := by
  induction fs with
  | nil => simp [fsFind, fsSet, Ne.symm h]
  | cons e fs ih =>
      by_cases he : e.1 = p
      · have hq : ¬e.1 = q := by rw [he]; exact Ne.symm h
        simp [fsFind, fsSet, he, hq, Ne.symm h]
      · by_cases hq : e.1 = q
        · simp [fsFind, fsSet, he, hq, h]
        · simp [fsFind, fsSet, he, hq, ih]

lemma fsSet_idem {α : Type} (fs : List (String × α)) (p : String) (v : α) :
    fsSet (fsSet fs p v) p v = fsSet fs p v := by
  induction fs with
  | nil => simp [fsSet]
  | cons e fs ih =>
      by_cases h : e.1 = p
      · simp [fsSet, h]
      · simp [fsSet, h, ih]

/-- Drop leading whitespace characters from a character list. -/
def dropWhileWS : List Char → List Char
  | [] => []
  | c :: cs => if c.isWhitespace then dropWhileWS cs else c :: cs

/-- Python str.strip(): remove whitespace from both ends. -/
def pyStrip (s : String) : String :=
  String.mk ((dropWhileWS (dropWhileWS s.data).reverse).reverse)

/-- The default query written to a missing params.txt. -/
def defaultSql : String := "SELECT * FROM dual\n"

/-- The placeholder credentials written to a missing database.txt. -/
def placeholderConfig : String := "user=123\npassword=456\ndsn=localhost:1521/orcl\n"

/-- Accumulate one line of database.txt: strip it, and if it is
nonempty and holds an equals sign, split at the first equals sign into
a key and a value. -/
def parseConfigLine (acc : List (String × String)) (line : String) :
    List (String × String) :=
  let l := pyStrip line
  if l = "" then acc
  else if l.contains '=' then
    match l.splitOn "=" with
    | [] => acc
    | k :: rest => acc ++ [(k, String.intercalate "=" rest)]
  else acc

/-- Parse of database.txt into key-value pairs, line by line. -/
def parseConfig (s : String) : List (String × String) :=
  (s.splitOn "\n").foldl parseConfigLine []

/-- read_sql_from_file: if the file is absent, create it with the
default query; then read the file and strip surrounding whitespace. -/
def read_sql_from_file (fs : List (String × String)) (path : String) :
    List (String × String) × String :=
  let fs1 :=
    match fsFind fs path with
    | none => fsSet fs path defaultSql
    | some _ => fs
  (fs1, pyStrip ((fsFind fs1 path).getD ""))

/-- read_db_config: if database.txt is absent, write the placeholder
configuration and exit with code 0 (returned here as none); otherwise
parse the file. -/
def read_db_config (fs : List (String × String)) :
    List (String × String) × Option (List (String × String)) :=
  match fsFind fs "database.txt" with
  | none => (fsSet fs "database.txt" placeholderConfig, none)
  | some s => (fs, some (parseConfig s))

/-- How a run of the script ends before any data is moved: the
credential-missing early exit with code 0, or continuation into the
connected pipeline with the query and configuration in hand. -/
inductive MainOutcome where
  | exitZeroConfigMissing
  | proceeded (sql : String) (cfg : List (String × String))
  deriving DecidableEq

inductive MEvent where
  | connectAttempt
  deriving DecidableEq

structure MainRes where
  fs : List (String × String)
  outcome : MainOutcome
  events : List MEvent

/-- The start of a run: read the query from params.txt (creating it if
missing), then read the credentials (exiting before any connection
attempt if database.txt is missing), and only then attempt to
connect. -/
def mainFlow (fs : List (String × String)) : MainRes :=
  let r1 := read_sql_from_file fs "params.txt"
  let r2 := read_db_config r1.1
  match r2.2 with
  | none => ⟨r2.1, MainOutcome.exitZeroConfigMissing, []⟩
  | some cfg => ⟨r2.1, MainOutcome.proceeded r1.2 cfg, [MEvent.connectAttempt]⟩

/-- C8: missing-configuration handling is asymmetric.  A run on a
filesystem without params.txt creates it with the default query and
proceeds using that query; a run on a filesystem without database.txt
writes the placeholder credentials and ends with exit code 0 without
any connection attempt. -/
theorem C8_missing_config_asymmetry (fs1 fs2 : List (String × String)) (s : String)
    (h1 : fsFind fs1 "params.txt" = none)
    (h2 : fsFind fs1 "database.txt" = some s)
    (h3 : fsFind fs2 "database.txt" = none) :
    fsFind (mainFlow fs1).fs "params.txt" = some defaultSql ∧
    (mainFlow fs1).outcome = MainOutcome.proceeded "SELECT * FROM dual" (parseConfig s) ∧
    (mainFlow fs2).outcome = MainOutcome.exitZeroConfigMissing ∧
    fsFind (mainFlow fs2).fs "database.txt" = some placeholderConfig ∧
    MEvent.connectAttempt ∉ (mainFlow fs2).events := by
  have hne : ("database.txt" : String) ≠ "params.txt" := by decide
  have htrim : pyStrip defaultSql = "SELECT * FROM dual" := by decide
  constructor
  · simp only [mainFlow, read_sql_from_file, read_db_config, h1]
    rw [fsFind_fsSet_other fs1 "params.txt" "database.txt" defaultSql hne, h2]
    simp [fsFind_fsSet_same]
  constructor
  · simp only [mainFlow, read_sql_from_file, read_db_config, h1]
    rw [fsFind_fsSet_other fs1 "params.txt" "database.txt" defaultSql hne, h2]
    simp [fsFind_fsSet_same, htrim]
  · cases hfp : fsFind fs2 "params.txt" with
    | none =>
        refine ⟨?_, ?_, ?_⟩ <;>
          simp only [mainFlow, read_sql_from_file, read_db_config, hfp] <;>
          rw [fsFind_fsSet_other fs2 "params.txt" "database.txt" defaultSql hne, h3] <;>
          simp [fsFind_fsSet_same]
    | some q =>
        refine ⟨?_, ?_, ?_⟩ <;>
          simp only [mainFlow, read_sql_from_file, read_db_config, hfp, h3] <;>
          simp [fsFind_fsSet_same]

theorem C8_missing_config_asymmetry_witness :
    fsFind (mainFlow [("database.txt", "user=u")]).fs "params.txt" = some defaultSql ∧
    (mainFlow [("database.txt", "user=u")]).outcome
        = MainOutcome.proceeded "SELECT * FROM dual" (parseConfig "user=u") ∧
    (mainFlow ([] : List (String × String))).outcome
        = MainOutcome.exitZeroConfigMissing ∧
    fsFind (mainFlow ([] : List (String × String))).fs "database.txt"
        = some placeholderConfig ∧
    MEvent.connectAttempt ∉ (mainFlow ([] : List (String × String))).events :=
  C8_missing_config_asymmetry [("database.txt", "user=u")] [] "user=u"
    (by decide) (by decide) (by decide)

/-- A chunk handed to the writer: the shared column names and the rows. -/
structure Chunk where
  cols : List String
  rows : List (List Value)
  deriving DecidableEq

/-- Serialization of a chunk as the writer lays it out: the column
headers as the first row, the values as the subsequent rows, column
order as given. -/
def serializeChunk (ch : Chunk) : List (List Value) :=
  ch.cols.map Value.text :: ch.rows

/-- to_excel of one chunk at a filename: overwrite that path of the
sheet filesystem with the serialized chunk.  The output depends only on
the chunk (the engine and options are fixed in the call and no clock is
read). -/
def writeChunk (fs : List (String × List (List Value))) (ch : Chunk)
    (fname : String) : List (String × List (List Value)) :=
  fsSet fs fname (serializeChunk ch)

/-- C9: the chunk writer is deterministic and idempotent: writing the
same chunk to the same filename twice leaves the filesystem exactly as
one write does, the content stored at the filename is a function of the
chunk alone (identical input gives identical output, with no timestamp
embedded), the column headers are the first row, and the values follow
with column order preserved. -/
theorem C9_chunkWriter_deterministic (fs : List (String × List (List Value)))
    (ch : Chunk) (fname : String) :
    writeChunk (writeChunk fs ch fname) ch fname = writeChunk fs ch fname ∧
    fsFind (writeChunk fs ch fname) fname = some (serializeChunk ch) ∧
    (serializeChunk ch).head? = some (ch.cols.map Value.text) ∧
    (serializeChunk ch).drop 1 = ch.rows := by
  refine ⟨fsSet_idem fs fname (serializeChunk ch),
    fsFind_fsSet_same fs fname (serializeChunk ch), rfl, rfl⟩

/-- The two scoped resources of one pipeline run. -/
inductive Res where
  | conn
  | cur
  deriving DecidableEq

/-- An acquisition or release event on a resource. -/
inductive REvent where
  | openR (r : Res)
  | closeR (r : Res)
  deriving DecidableEq

/-- Where a run of execute_query_and_export_to_excel can fail, in
source order: client initialization, the credential-missing exit inside
read_db_config, the connect call, SQL validation, the count query, the
main query, or the spreadsheet write.  noFail is the run in which every
step succeeds. -/
inductive FailPoint where
  | noFail
  | initClientFail
  | configMissing
  | connectFail
  | validateFail
  | countFail
  | mainQueryFail
  | writeFail
  deriving DecidableEq

/-- The exception classes the except clauses distinguish: DatabaseError,
ValueError, every other Exception, and SystemExit (raised by sys.exit
and caught by none of the clauses). -/
inductive Exc where
  | dbErr
  | valErr
  | generic
  | sysExit
  deriving DecidableEq

structure BodyRes where
  events : List REvent
  connOpen : Bool
  curOpen : Bool
  columnsBound : Bool
  rowBound : Bool
  exc : Option Exc

/-- The try body of execute_query_and_export_to_excel, traced up to the
failing step: which resource events happened, which resources are open
on exit from the body, whether the local variables columns and row were
assigned, and the exception (if any) leaving the body.  small selects
the single-file branch (total rows at most 500000); in the multi-file
branch the loop variable row is assigned, in the single-file branch it
never is. -/
def bodyRun (small : Bool) (fp : FailPoint) : BodyRes :=
  if fp = FailPoint.initClientFail then ⟨[], false, false, false, false, some Exc.dbErr⟩
  else if fp = FailPoint.configMissing then ⟨[], false, false, false, false, some Exc.sysExit⟩
  else if fp = FailPoint.connectFail then ⟨[], false, false, false, false, some Exc.dbErr⟩
  else
    let e1 := [REvent.openR Res.conn, REvent.openR Res.cur]
    if fp = FailPoint.validateFail then ⟨e1, true, true, false, false, some Exc.valErr⟩
    else if fp = FailPoint.countFail then ⟨e1, true, true, false, false, some Exc.dbErr⟩
    else
      let e2 := e1 ++ [REvent.closeR Res.cur, REvent.openR Res.cur]
      if fp = FailPoint.mainQueryFail then ⟨e2, true, true, false, false, some Exc.dbErr⟩
      else if fp = FailPoint.writeFail then ⟨e2, true, true, true, !small, some Exc.generic⟩
      else ⟨e2, true, true, true, !small, none⟩

/-- How the process ends: clean success, an anticipated error logged by
an except clause followed by a normal exit, the exit-code-0 termination
of sys.exit, or a crash — the generic except clause logs an f-string
mentioning columns and row, and raises NameError itself when either is
unbound, which propagates and ends the process with a non-zero code. -/
inductive Outcome where
  | success
  | loggedNormalExit
  | exitZero
  | crash
  deriving DecidableEq

structure RunRes where
  events : List REvent
  outcome : Outcome

/-- A whole run: the try body, the except clauses, and the finally
block that closes whichever of the cursor and connection are open. -/
def pipelineRun (small : Bool) (fp : FailPoint) : RunRes :=
  let b := bodyRun small fp
  let cleanup :=
    (if b.curOpen then [REvent.closeR Res.cur] else [])
      ++ (if b.connOpen then [REvent.closeR Res.conn] else [])
  let outc :=
    match b.exc with
    | none => Outcome.success
    | some Exc.sysExit => Outcome.exitZero
    | some Exc.dbErr => Outcome.loggedNormalExit
    | some Exc.valErr => Outcome.loggedNormalExit
    | some Exc.generic =>
        if b.columnsBound && b.rowBound then Outcome.loggedNormalExit
        else Outcome.crash
  ⟨b.events ++ cleanup, outc⟩

/-- Net contribution of one event to the number of open handles of a
resource. -/
def openDelta (r : Res) (e : REvent) : Int :=
  match e with
  | REvent.openR q => if q = r then 1 else 0
  | REvent.closeR q => if q = r then -1 else 0

/-- Number of open handles of a resource after a trace. -/
def netOpen (r : Res) (evs : List REvent) : Int :=
  (evs.map (openDelta r)).sum

/-- Scoped-acquisition check: after every prefix of the trace, between
0 and 1 handles of the resource are open. -/
def scopedOk (r : Res) (evs : List REvent) : Bool :=
  (List.range (evs.length + 1)).all
    (fun k => decide (0 ≤ netOpen r (evs.take k)) && decide (netOpen r (evs.take k) ≤ 1))

/-- C6: on every exit path of a run — clean completion, a failure at
any step, or the early sys.exit — the connection and cursor that were
acquired are released by the finally block, and after every prefix of
the run's event trace at most one connection and at most one cursor are
open. -/
theorem C6_resource_release (small : Bool) (fp : FailPoint) :
    netOpen Res.conn (pipelineRun small fp).events = 0 ∧
    netOpen Res.cur (pipelineRun small fp).events = 0 ∧
    scopedOk Res.conn (pipelineRun small fp).events = true ∧
    scopedOk Res.cur (pipelineRun small fp).events = true := by
  cases small <;> cases fp <;> exact ⟨by decide, by decide, by decide, by decide⟩

/-- C7: the claim says every anticipated error category is caught at
the top level, logged, and followed by cleanup and a normal exit.  The
DatabaseError and ValueError clauses do behave so, and a write error in
multi-file mode is logged by the generic clause; but a write error in
single-file mode reaches the generic clause with the loop variable row
never assigned, the clause's own log line raises NameError, and the
process crashes with a non-zero exit code. -/
theorem C7_writeError_crashes_single_file :
    (pipelineRun true FailPoint.writeFail).outcome = Outcome.crash ∧
    (pipelineRun false FailPoint.writeFail).outcome = Outcome.loggedNormalExit ∧
    (pipelineRun true FailPoint.connectFail).outcome = Outcome.loggedNormalExit ∧
    (pipelineRun true FailPoint.validateFail).outcome = Outcome.loggedNormalExit ∧
    (pipelineRun true FailPoint.countFail).outcome = Outcome.loggedNormalExit ∧
    Outcome.crash ≠ Outcome.loggedNormalExit := by
  refine ⟨by decide, by decide, by decide, by decide, by decide, by decide⟩

/-- One streamed row together with whether processing it inside the
accumulation try-block succeeds; a row with ok = false raises there. -/
structure ExRow where
  row : List Value
  ok : Bool
  deriving DecidableEq

/-- Number of rows of a stream that accumulate successfully. -/
def okCount (rows : List ExRow) : Nat :=
  (rows.filter (fun r => r.ok)).length

/-- split_size, the maximum number of rows per multi-file chunk. -/
def splitSize : Nat := 200000

/-- The single-file against multi-file decision threshold on the
counted total rows. -/
def threshold : Nat := 500000

/-- Zero-pad a numeral string to three digits, as the 03d format does. -/
def pad3 (i : Nat) : String :=
  let s := toString i
  String.mk (List.replicate (3 - s.length) '0') ++ s

/-- The name of the i-th multi-file output file. -/
def fileName (i : Nat) : String := "output_" ++ pad3 i ++ ".xlsx"

/-- One output file: its name and its (sanitized) data rows. -/
structure OutFile where
  name : String
  rows : List (List Value)
  deriving DecidableEq

/-- One error-log record of the accumulation loop: the chunk counter
current_count at the failure, the column names, and the row content. -/
structure LogEntry where
  idx : Nat
  cols : List String
  row : List Value
  deriving DecidableEq

/-- The loop state of the multi-file branch: the chunk being
accumulated, current_count, file_counter, the files written so far and
the per-row error log. -/
structure MFState where
  chunk : List (List Value)
  count : Nat
  counter : Nat
  files : List OutFile
  logs : List LogEntry
  deriving DecidableEq

/-- One iteration of the multi-file loop: try to append the row and
bump current_count, logging current_count, the column names and the row
on failure; then, if current_count reached split_size, sanitize the
chunk on the full-chunk path, write it under the current counter, and
reset chunk, count and bump the counter. -/
def mfStep (cols : List String) (st : MFState) (r : ExRow) : MFState :=
  let st1 : MFState :=
    if r.ok then
      ⟨st.chunk ++ [r.row], st.count + 1, st.counter, st.files, st.logs⟩
    else
      ⟨st.chunk, st.count, st.counter, st.files,
        st.logs ++ [⟨st.count, cols, r.row⟩]⟩
  if splitSize ≤ st1.count then
    ⟨[], 0, st1.counter + 1,
      st1.files ++ [⟨fileName st1.counter, sanitizeChunkFull cols.length st1.chunk⟩],
      st1.logs⟩
  else st1

/-- The loop starts with an empty chunk, count 0 and file counter 1. -/
def mfInit : MFState := ⟨[], 0, 1, [], []⟩

/-- The whole multi-file branch: fold the loop over the stream, then,
if a nonempty trailing chunk remains, sanitize it on the trailing-chunk
path and write it under the current counter. -/
def mfRun (cols : List String) (rows : List ExRow) : MFState :=
  let st := List.foldl (mfStep cols) mfInit rows
  if st.chunk.isEmpty then st
  else
    ⟨st.chunk, st.count, st.counter,
      st.files ++ [⟨fileName st.counter, sanitizeChunkTail cols.length st.chunk⟩],
      st.logs⟩

/-- The observable output of one run: the files written and the per-row
error log. -/
structure PipeOut where
  files : List OutFile
  logs : List LogEntry
  deriving DecidableEq

/-- The export pipeline after the count query returned totalRows: at
most 500000 rows selects the single-file branch, which fetches all rows
at once (a row failure there aborts the fetch and writes nothing),
sanitizes them on the full-chunk path and writes output.xlsx; more than
500000 rows selects the multi-file loop. -/
def exportPipeline (cols : List String) (totalRows : Nat) (rows : List ExRow) :
    PipeOut :=
  if totalRows ≤ threshold then
    if rows.all (fun r => r.ok) then
      ⟨[⟨"output.xlsx", sanitizeChunkFull cols.length (rows.map (fun r => r.row))⟩], []⟩
    else ⟨[], []⟩
  else
    let st := mfRun cols rows
    ⟨st.files, st.logs⟩

lemma splitSize_eq : splitSize = 200000 := rfl

lemma okCount_nil : okCount [] = 0 := rfl

lemma okCount_cons_ok (r : ExRow) (l : List ExRow) (h : r.ok = true) :
    okCount (r :: l) = okCount l + 1 := by
  simp [okCount, List.filter_cons, h]

lemma okCount_cons_bad (r : ExRow) (l : List ExRow) (h : r.ok = false) :
    okCount (r :: l) = okCount l := by
  simp [okCount, List.filter_cons, h]

lemma okCount_append (a b : List ExRow) :
    okCount (a ++ b) = okCount a + okCount b := by
  simp [okCount, List.filter_append]

lemma okCount_le_length (l : List ExRow) : okCount l ≤ l.length :=
  List.length_filter_le _ l

lemma okCount_all_true (l : List ExRow) (h : ∀ r ∈ l, r.ok = true) :
    okCount l = l.length := by
  unfold okCount
  rw [List.filter_eq_self.mpr h]

/-- Characterization of the multi-file loop fold from any state whose
count matches its chunk and is below split_size: the final count and
chunk length are the successful rows mod split_size (counting from the
starting chunk), the counter advanced by the number of flushes, each
flushed file holds exactly split_size rows and is named by consecutive
counter values, and a failure-free stream adds no log entry. -/
lemma mfFold_char (cols : List String) (rows : List ExRow) :
    ∀ st : MFState, st.count = st.chunk.length → st.count < splitSize →
      (List.foldl (mfStep cols) st rows).count
          = (st.count + okCount rows) % splitSize
      ∧ (List.foldl (mfStep cols) st rows).chunk.length
          = (st.count + okCount rows) % splitSize
      ∧ (List.foldl (mfStep cols) st rows).counter
          = st.counter + (st.count + okCount rows) / splitSize
      ∧ (List.foldl (mfStep cols) st rows).files.map (fun f => f.rows.length)
          = st.files.map (fun f => f.rows.length)
            ++ List.replicate ((st.count + okCount rows) / splitSize) splitSize
      ∧ (List.foldl (mfStep cols) st rows).files.map (fun f => f.name)
          = st.files.map (fun f => f.name)
            ++ (List.range' st.counter ((st.count + okCount rows) / splitSize)).map fileName
      ∧ ((∀ r ∈ rows, r.ok = true) →
          (List.foldl (mfStep cols) st rows).logs = st.logs) := by
  induction rows with
  | nil =>
      intro st h1 h2
      have hm : st.count % splitSize = st.count := Nat.mod_eq_of_lt h2
      have hd : st.count / splitSize = 0 := Nat.div_eq_of_lt h2
      simp only [List.foldl_nil, okCount_nil, Nat.add_zero]
      rw [hm, hd]
      simp [h1]
  | cons r rs ih =>
      intro st h1 h2
      rw [List.foldl_cons]
      cases hok : r.ok with
      | false =>
          have hne : ¬splitSize ≤ st.count := by omega
          have hstep : mfStep cols st r
              = ⟨st.chunk, st.count, st.counter, st.files,
                  st.logs ++ [⟨st.count, cols, r.row⟩]⟩ := by
            simp [mfStep, hok, hne]
          rw [hstep]
          have hko : st.count + okCount (r :: rs) = st.count + okCount rs := by
            rw [okCount_cons_bad r rs hok]
          rw [hko]
          obtain ⟨i1, i2, i3, i4, i5, i6⟩ :=
            ih ⟨st.chunk, st.count, st.counter, st.files,
                  st.logs ++ [⟨st.count, cols, r.row⟩]⟩ h1 h2
          refine ⟨i1, i2, i3, i4, i5, ?_⟩
          intro hall
          exact absurd (hall r (List.mem_cons_self r rs)) (by simp [hok])
      | true =>
          have hko : st.count + okCount (r :: rs) = (st.count + 1) + okCount rs := by
            rw [okCount_cons_ok r rs hok]
            omega
          by_cases h3 : splitSize ≤ st.count + 1
          · have hc : st.count + 1 = splitSize := by omega
            have hstep : mfStep cols st r
                = ⟨[], 0, st.counter + 1,
                    st.files ++ [⟨fileName st.counter,
                      sanitizeChunkFull cols.length (st.chunk ++ [r.row])⟩],
                    st.logs⟩ := by
              simp [mfStep, hok, h3]
            rw [hstep, hko]
            obtain ⟨i1, i2, i3, i4, i5, i6⟩ :=
              ih ⟨[], 0, st.counter + 1,
                    st.files ++ [⟨fileName st.counter,
                      sanitizeChunkFull cols.length (st.chunk ++ [r.row])⟩],
                    st.logs⟩ rfl (by show (0 : Nat) < splitSize; rw [splitSize_eq]; omega)
            simp only [Nat.zero_add] at i1 i2 i3 i4 i5
            have hmod : (st.count + 1 + okCount rs) % splitSize
                = okCount rs % splitSize := by
              rw [hc]
              rw [splitSize_eq]
              omega
            have hdiv : (st.count + 1 + okCount rs) / splitSize
                = okCount rs / splitSize + 1 := by
              rw [hc]
              rw [splitSize_eq]
              omega
            have hlen : (sanitizeChunkFull cols.length (st.chunk ++ [r.row])).length
                = splitSize := by
              rw [sanitizeChunkFull_length, List.length_append, List.length_cons,
                List.length_nil]
              omega
            refine ⟨?_, ?_, ?_, ?_, ?_, ?_⟩
            · rw [i1, hmod]
            · rw [i2, hmod]
            · rw [i3, hdiv]
              omega
            · rw [i4, hdiv, List.replicate_succ, List.map_append]
              simp [hlen]
            · rw [i5, hdiv, List.range'_succ, List.map_append]
              simp
            · intro hall
              rw [i6 (fun x hx => hall x (List.mem_cons_of_mem r hx))]
          · have hstep : mfStep cols st r
                = ⟨st.chunk ++ [r.row], st.count + 1, st.counter, st.files, st.logs⟩ := by
              simp [mfStep, hok, h3]
            rw [hstep, hko]
            obtain ⟨i1, i2, i3, i4, i5, i6⟩ :=
              ih ⟨st.chunk ++ [r.row], st.count + 1, st.counter, st.files, st.logs⟩
                (by show st.count + 1 = (st.chunk ++ [r.row]).length; simp [h1])
                (by show st.count + 1 < splitSize; omega)
            refine ⟨i1, i2, i3, i4, i5, ?_⟩
            intro hall
            exact i6 (fun x hx => hall x (List.mem_cons_of_mem r hx))

lemma splitSize_pos : 0 < splitSize := by
  rw [splitSize_eq]
  omega

lemma threshold_eq : threshold = 500000 := rfl

lemma countP_replicate {α : Type} (p : α → Bool) (n : Nat) (x : α) :
    (List.replicate n x).countP p = if p x then n else 0 := by
  induction n with
  | zero => simp
  | succ n ih =>
      simp [List.replicate_succ, List.countP_cons, ih]
      split <;> simp

lemma range'_snoc (s n : Nat) : List.range' s (n + 1) = List.range' s n ++ [s + n] := by
  induction n generalizing s with
  | zero => simp
  | succ n ih =>
      rw [List.range'_succ, ih (s + 1), List.range'_succ]
      have hh : s + 1 + n = s + (n + 1) := by omega
      simp [hh]

/-- The loop fold started from the initial state: the successful rows
fill floor of okCount over split_size files of split_size rows each,
named by counters 1, 2, ..., and leave okCount mod split_size rows in
the chunk. -/
lemma mfInit_char (cols : List String) (rows : List ExRow) :
    (List.foldl (mfStep cols) mfInit rows).count = okCount rows % splitSize
    ∧ (List.foldl (mfStep cols) mfInit rows).chunk.length = okCount rows % splitSize
    ∧ (List.foldl (mfStep cols) mfInit rows).counter = 1 + okCount rows / splitSize
    ∧ (List.foldl (mfStep cols) mfInit rows).files.map (fun f => f.rows.length)
        = List.replicate (okCount rows / splitSize) splitSize
    ∧ (List.foldl (mfStep cols) mfInit rows).files.map (fun f => f.name)
        = (List.range' 1 (okCount rows / splitSize)).map fileName
    ∧ ((∀ r ∈ rows, r.ok = true) → (List.foldl (mfStep cols) mfInit rows).logs = []) := by
  obtain ⟨i1, i2, i3, i4, i5, i6⟩ :=
    mfFold_char cols rows mfInit rfl (by show (0 : Nat) < splitSize; exact splitSize_pos)
  simp [mfInit] at i1 i2 i3 i4 i5 i6
  exact ⟨i1, i2, i3, i4, i5, i6⟩

lemma mfRun_logs_eq (cols : List String) (rows : List ExRow) :
    (mfRun cols rows).logs = (List.foldl (mfStep cols) mfInit rows).logs := by
  simp only [mfRun]
  split <;> rfl

lemma exportPipeline_logs_of_gt (cols : List String) (n : Nat) (rows : List ExRow)
    (h : ¬n ≤ threshold) :
    (exportPipeline cols n rows).logs = (mfRun cols rows).logs := by
  simp only [exportPipeline]
  rw [if_neg h]

/-- On a failure-free stream, the multi-file branch writes the files
the specification describes: full files of split_size rows, a trailing
file of the remainder iff the remainder is nonzero, names with
consecutive counters from 1, and an empty error log. -/
lemma mfRun_char_ok (cols : List String) (rows : List ExRow)
    (hok : ∀ r ∈ rows, r.ok = true) :
    (mfRun cols rows).files.map (fun f => f.rows.length)
      = List.replicate (rows.length / splitSize) splitSize
        ++ (if rows.length % splitSize = 0 then [] else [rows.length % splitSize]) ∧
    (mfRun cols rows).files.map (fun f => f.name)
      = (List.range' 1 (mfRun cols rows).files.length).map fileName ∧
    (mfRun cols rows).logs = [] := by
  obtain ⟨i1, i2, i3, i4, i5, i6⟩ := mfInit_char cols rows
  rw [okCount_all_true rows hok] at i1 i2 i3 i4 i5
  set st := List.foldl (mfStep cols) mfInit rows with hst
  by_cases hmod : rows.length % splitSize = 0
  · have hemp : st.chunk.isEmpty = true := by
      rw [List.isEmpty_iff, ← List.length_eq_zero, i2, hmod]
    have hrun : mfRun cols rows = st := by
      simp only [mfRun, ← hst, hemp, if_true]
    rw [hrun]
    have hflen : st.files.length = rows.length / splitSize := by
      have hc := congrArg List.length i4
      simpa using hc
    refine ⟨?_, ?_, i6 hok⟩
    · rw [i4, hmod]
      simp
    · rw [i5, hflen]
  · have hlen0 : st.chunk.length ≠ 0 := by
      rw [i2]
      exact hmod
    have hemp : st.chunk.isEmpty = false := by
      rw [Bool.eq_false_iff]
      intro hh
      exact hlen0 (by rw [List.isEmpty_iff.mp hh]; rfl)
    have hrun : mfRun cols rows
        = ⟨st.chunk, st.count, st.counter,
            st.files ++ [⟨fileName st.counter, sanitizeChunkTail cols.length st.chunk⟩],
            st.logs⟩ := by
      simp only [mfRun, ← hst, hemp]
      rfl
    rw [hrun]
    have hflen : st.files.length = rows.length / splitSize := by
      have hc := congrArg List.length i4
      simpa using hc
    refine ⟨?_, ?_, i6 hok⟩
    · simp only [List.map_append, List.map_cons, List.map_nil]
      rw [i4, sanitizeChunkTail_length, i2]
      simp [hmod]
    · simp only [List.map_append, List.map_cons, List.map_nil, List.length_append,
        List.length_cons, List.length_nil]
      rw [i5, i3, hflen, range'_snoc]
      simp

/-- The total number of rows written across all files of the multi-file
branch equals the number of successfully accumulated rows. -/
lemma mfRun_sum (cols : List String) (rows : List ExRow) :
    ((mfRun cols rows).files.map (fun f => f.rows.length)).sum = okCount rows := by
  obtain ⟨i1, i2, i3, i4, i5, i6⟩ := mfInit_char cols rows
  set st := List.foldl (mfStep cols) mfInit rows with hst
  by_cases hemp : st.chunk.isEmpty = true
  · have hrun : mfRun cols rows = st := by
      simp only [mfRun, ← hst, hemp, if_true]
    have h0 : okCount rows % splitSize = 0 := by
      rw [← i2, List.isEmpty_iff.mp hemp]
      rfl
    rw [hrun, i4, List.sum_replicate, smul_eq_mul]
    rw [splitSize_eq] at h0 ⊢
    omega
  · have hemp2 : st.chunk.isEmpty = false := by
      rw [Bool.eq_false_iff]
      exact hemp
    have hrun : mfRun cols rows
        = ⟨st.chunk, st.count, st.counter,
            st.files ++ [⟨fileName st.counter, sanitizeChunkTail cols.length st.chunk⟩],
            st.logs⟩ := by
      simp only [mfRun, ← hst, hemp2]
      rfl
    rw [hrun]
    simp only [List.map_append, List.map_cons, List.map_nil, List.sum_append]
    rw [i4, List.sum_replicate, smul_eq_mul, sanitizeChunkTail_length, i2]
    have hmlt : okCount rows % splitSize < splitSize := Nat.mod_lt _ splitSize_pos
    rw [splitSize_eq] at *
    simp
    omega

/-- The accumulation loop run over rows that succeed before and after a
single failing row logs exactly one record: the chunk counter at the
failure (the count of successful rows so far, mod split_size), the
column names, and the failing row's content. -/
lemma mfRun_oneBad_logs (cols : List String) (a b : List ExRow) (bad : ExRow)
    (ha : ∀ r ∈ a, r.ok = true) (hb : ∀ r ∈ b, r.ok = true) (hbad : bad.ok = false) :
    (mfRun cols (a ++ bad :: b)).logs = [⟨a.length % splitSize, cols, bad.row⟩] := by
  rw [mfRun_logs_eq, List.foldl_append, List.foldl_cons]
  obtain ⟨a1, a2, a3, a4, a5, a6⟩ := mfInit_char cols a
  set sa := List.foldl (mfStep cols) mfInit a with hsa
  have hlt : sa.count < splitSize := by
    rw [a1]
    exact Nat.mod_lt _ splitSize_pos
  have hne : ¬splitSize ≤ sa.count := by omega
  have hstep : mfStep cols sa bad
      = ⟨sa.chunk, sa.count, sa.counter, sa.files,
          sa.logs ++ [⟨sa.count, cols, bad.row⟩]⟩ := by
    simp [mfStep, hbad, hne]
  rw [hstep]
  obtain ⟨b1, b2, b3, b4, b5, b6⟩ :=
    mfFold_char cols b
      ⟨sa.chunk, sa.count, sa.counter, sa.files, sa.logs ++ [⟨sa.count, cols, bad.row⟩]⟩
      (by show sa.count = sa.chunk.length; rw [a1, a2]) (by show sa.count < splitSize; omega)
  rw [b6 hb]
  show sa.logs ++ [⟨sa.count, cols, bad.row⟩] = _
  rw [a6 ha, a1, okCount_all_true a ha]
  simp

/-- C1: in multi-file mode (counted total rows above 500000) on a
failure-free stream of n rows, the pipeline writes exactly n / 200000
full files of exactly 200000 rows each, writes a final smaller file
(of n mod 200000 rows) iff n mod 200000 is nonzero, names the files
with the base name, an underscore, the zero-padded counter 1, 2, ...
and the xlsx extension, and the total rows written equal n; on an
arbitrary stream the total written is n minus the rows dropped by
per-row failures. -/
theorem C1_multiFile_chunking (cols : List String) (rows rows2 : List ExRow)
    (hok : ∀ r ∈ rows, r.ok = true)
    (hn : threshold < rows.length) (hn2 : threshold < rows2.length) :
    (exportPipeline cols rows.length rows).files.map (fun f => f.rows.length)
        = List.replicate (rows.length / splitSize) splitSize
          ++ (if rows.length % splitSize = 0 then [] else [rows.length % splitSize]) ∧
    ((exportPipeline cols rows.length rows).files.filter
        (fun f => f.rows.length = splitSize)).length = rows.length / splitSize ∧
    ((∃ f ∈ (exportPipeline cols rows.length rows).files,
        f.rows.length < splitSize) ↔ rows.length % splitSize ≠ 0) ∧
    (exportPipeline cols rows.length rows).files.map (fun f => f.name)
        = (List.range' 1 (exportPipeline cols rows.length rows).files.length).map fileName ∧
    ((exportPipeline cols rows.length rows).files.map (fun f => f.rows.length)).sum
        = rows.length ∧
    ((exportPipeline cols rows2.length rows2).files.map (fun f => f.rows.length)).sum
        = rows2.length - (rows2.length - okCount rows2) := by
  have hnot : ¬rows.length ≤ threshold := by omega
  have hnot2 : ¬rows2.length ≤ threshold := by omega
  have hfiles : (exportPipeline cols rows.length rows).files = (mfRun cols rows).files := by
    simp [exportPipeline, hnot]
  have hfiles2 : (exportPipeline cols rows2.length rows2).files
      = (mfRun cols rows2).files := by
    simp [exportPipeline, hnot2]
  obtain ⟨m1, m2, m3⟩ := mfRun_char_ok cols rows hok
  have hmlt : rows.length % splitSize < splitSize := Nat.mod_lt _ splitSize_pos
  refine ⟨?_, ?_, ?_, ?_, ?_, ?_⟩
  · rw [hfiles]
    exact m1
  · rw [hfiles, ← List.countP_eq_length_filter]
    have hcp : (mfRun cols rows).files.countP (fun f => decide (f.rows.length = splitSize))
        = ((mfRun cols rows).files.map (fun f => f.rows.length)).countP
            (fun x => decide (x = splitSize)) := by
      rw [List.countP_map]
      rfl
    rw [hcp, m1, List.countP_append, countP_replicate]
    have hne2 : rows.length % splitSize ≠ splitSize := Nat.ne_of_lt hmlt
    by_cases hmod : rows.length % splitSize = 0 <;>
      simp [hmod, List.countP_cons, hne2]
  · rw [hfiles]
    constructor
    · rintro ⟨f, hf, hflt⟩
      intro hmod0
      have hmem : f.rows.length
          ∈ (mfRun cols rows).files.map (fun g => g.rows.length) :=
        List.mem_map_of_mem _ hf
      rw [m1, hmod0] at hmem
      simp at hmem
      omega
    · intro hmod0
      have hmem : rows.length % splitSize
          ∈ (mfRun cols rows).files.map (fun g => g.rows.length) := by
        rw [m1]
        simp [hmod0]
      obtain ⟨f, hf, hflen⟩ := List.mem_map.mp hmem
      exact ⟨f, hf, by rw [hflen]; exact hmlt⟩
  · rw [hfiles]
    exact m2
  · rw [hfiles, mfRun_sum]
    exact okCount_all_true rows hok
  · rw [hfiles2, mfRun_sum]
    have := okCount_le_length rows2
    omega

/-- C2: the mode threshold is inclusive on the single-file side: a
failure-free run with counted total at most 500000 writes exactly one
file named output.xlsx holding all the rows, and a run with exactly
500001 rows uses multi-file mode, its first file named with counter 001
and holding exactly 200000 rows. -/
theorem C2_threshold_boundary (cols : List String) (rows1 rows2 : List ExRow)
    (h1ok : ∀ r ∈ rows1, r.ok = true) (h2ok : ∀ r ∈ rows2, r.ok = true)
    (hn1 : rows1.length ≤ threshold) (hn2 : rows2.length = 500001) :
    (exportPipeline cols rows1.length rows1).files.map (fun f => (f.name, f.rows.length))
        = [("output.xlsx", rows1.length)] ∧
    (exportPipeline cols rows2.length rows2).files.head?.map (fun f => f.name)
        = some "output_001.xlsx" ∧
    (exportPipeline cols rows2.length rows2).files.head?.map (fun f => f.rows.length)
        = some splitSize := by
  have hall : rows1.all (fun r => r.ok) = true := List.all_eq_true.mpr h1ok
  have hnot : ¬rows2.length ≤ threshold := by rw [hn2, threshold_eq]; omega
  have hfiles2 : (exportPipeline cols rows2.length rows2).files
      = (mfRun cols rows2).files := by
    simp [exportPipeline, hnot]
  obtain ⟨m1, m2, m3⟩ := mfRun_char_ok cols rows2 h2ok
  rw [hn2] at m1
  have hdiv : (500001 : Nat) / splitSize = 2 := by rw [splitSize_eq]
  have hmod : (500001 : Nat) % splitSize = 100001 := by rw [splitSize_eq]
  rw [hdiv, hmod] at m1
  have hlen3 : (mfRun cols rows2).files.length = 3 := by
    have hc := congrArg List.length m1
    simpa using hc
  refine ⟨?_, ?_, ?_⟩
  · simp [exportPipeline, hn1, hall, sanitizeChunkFull_length]
  · rw [hfiles2, ← List.head?_map, m2, hlen3]
    decide
  · rw [hfiles2, ← List.head?_map, m1]
    rfl

/-- C3 (amended): a row that raises while being accumulated in
multi-file mode is caught individually, logged with the loop's chunk
counter at the failure — the number of rows accumulated into the
current chunk so far, that is the count of preceding successful rows
mod 200000 — and the row's content; it is dropped from every output
chunk while the pipeline continues, so with one failing row out of n
the total exported row count is n - 1. -/
theorem C3_rowError_skipped (cols : List String) (a b : List ExRow) (bad : ExRow)
    (ha : ∀ r ∈ a, r.ok = true) (hb : ∀ r ∈ b, r.ok = true) (hbad : bad.ok = false)
    (hn : threshold < (a ++ bad :: b).length) :
    (exportPipeline cols (a ++ bad :: b).length (a ++ bad :: b)).logs
        = [⟨a.length % splitSize, cols, bad.row⟩] ∧
    ((exportPipeline cols (a ++ bad :: b).length (a ++ bad :: b)).files.map
        (fun f => f.rows.length)).sum = (a ++ bad :: b).length - 1 := by
  have hnot : ¬(a ++ bad :: b).length ≤ threshold := by omega
  have hpl : (exportPipeline cols (a ++ bad :: b).length (a ++ bad :: b)).logs
      = (mfRun cols (a ++ bad :: b)).logs := by
    simp only [exportPipeline]
    rw [if_neg hnot]
  have hpf : (exportPipeline cols (a ++ bad :: b).length (a ++ bad :: b)).files
      = (mfRun cols (a ++ bad :: b)).files := by
    simp only [exportPipeline]
    rw [if_neg hnot]
  constructor
  · rw [hpl]
    exact mfRun_oneBad_logs cols a b bad ha hb hbad
  · rw [hpf, mfRun_sum]
    have hk : okCount (a ++ bad :: b) = a.length + b.length := by
      rw [okCount_append, okCount_cons_bad bad b hbad, okCount_all_true a ha,
        okCount_all_true b hb]
    have hl : (a ++ bad :: b).length = a.length + b.length + 1 := by
      rw [List.length_append, List.length_cons]
      omega
    omega

/-- A successfully processed row with no columns, used to instantiate
the pipeline theorems at concrete inputs. -/
def wOk : ExRow := ⟨[], true⟩

/-- A row that raises during accumulation, with no columns. -/
def wBad : ExRow := ⟨[], false⟩

/-- A concrete stream of 500001 successful rows. -/
def wRowsBig : List ExRow := List.replicate 500001 wOk

/-- A concrete stream of 500000 successful rows. -/
def wRowsHalf : List ExRow := List.replicate 500000 wOk

theorem C1_multiFile_chunking_witness :
    (exportPipeline [] wRowsBig.length wRowsBig).files.map (fun f => f.rows.length)
        = List.replicate (wRowsBig.length / splitSize) splitSize
          ++ (if wRowsBig.length % splitSize = 0 then [] else [wRowsBig.length % splitSize]) ∧
    ((exportPipeline [] wRowsBig.length wRowsBig).files.filter
        (fun f => f.rows.length = splitSize)).length = wRowsBig.length / splitSize ∧
    ((∃ f ∈ (exportPipeline [] wRowsBig.length wRowsBig).files,
        f.rows.length < splitSize) ↔ wRowsBig.length % splitSize ≠ 0) ∧
    (exportPipeline [] wRowsBig.length wRowsBig).files.map (fun f => f.name)
        = (List.range' 1 (exportPipeline [] wRowsBig.length wRowsBig).files.length).map
            fileName ∧
    ((exportPipeline [] wRowsBig.length wRowsBig).files.map (fun f => f.rows.length)).sum
        = wRowsBig.length ∧
    ((exportPipeline [] wRowsBig.length wRowsBig).files.map (fun f => f.rows.length)).sum
        = wRowsBig.length - (wRowsBig.length - okCount wRowsBig) := by
  apply C1_multiFile_chunking
  · intro r hr
    have hr2 : r ∈ List.replicate 500001 wOk := hr
    rw [List.eq_of_mem_replicate hr2]
    rfl
  · show threshold < wRowsBig.length
    rw [threshold_eq]
    simp only [wRowsBig, List.length_replicate]
    omega
  · show threshold < wRowsBig.length
    rw [threshold_eq]
    simp only [wRowsBig, List.length_replicate]
    omega

theorem C2_threshold_boundary_witness :
    (exportPipeline [] ([] : List ExRow).length []).files.map
        (fun f => (f.name, f.rows.length))
        = [("output.xlsx", ([] : List ExRow).length)] ∧
    (exportPipeline [] wRowsBig.length wRowsBig).files.head?.map (fun f => f.name)
        = some "output_001.xlsx" ∧
    (exportPipeline [] wRowsBig.length wRowsBig).files.head?.map (fun f => f.rows.length)
        = some splitSize := by
  apply C2_threshold_boundary
  · intro r hr
    simp at hr
  · intro r hr
    have hr2 : r ∈ List.replicate 500001 wOk := hr
    rw [List.eq_of_mem_replicate hr2]
    rfl
  · show ([] : List ExRow).length ≤ threshold
    simp
  · show wRowsBig.length = 500001
    simp only [wRowsBig, List.length_replicate]

theorem C3_rowError_skipped_witness :
    (exportPipeline [] (wRowsHalf ++ wBad :: []).length (wRowsHalf ++ wBad :: [])).logs
        = [⟨wRowsHalf.length % splitSize, [], wBad.row⟩] ∧
    ((exportPipeline [] (wRowsHalf ++ wBad :: []).length
        (wRowsHalf ++ wBad :: [])).files.map (fun f => f.rows.length)).sum
        = (wRowsHalf ++ wBad :: []).length - 1 := by
  apply C3_rowError_skipped
  · intro r hr
    have hr2 : r ∈ List.replicate 500000 wOk := hr
    rw [List.eq_of_mem_replicate hr2]
    rfl
  · intro r hr
    simp at hr
  · rfl
  · show threshold < (wRowsHalf ++ wBad :: []).length
    have h1 : (wRowsHalf ++ wBad :: []).length = 500001 := by
      rw [List.length_append]
      rw [show wRowsHalf.length = 500000 from List.length_replicate 500000 wOk]
      rfl
    rw [h1, threshold_eq]
    omega

/-- C3 counterexample to the claim as stated: with 500000 successful
rows followed by one failing row (total 500001, so multi-file mode),
the code logs the chunk counter 100000 — current_count resets at every
flush — while the failing row's index in the stream is 500000. -/
theorem C3_loggedIndex_counterexample :
    (exportPipeline [] 500001 (List.replicate 500000 wOk ++ [wBad])).logs
        = [⟨100000, [], []⟩] ∧ (100000 : Nat) ≠ 500000 := by
  constructor
  · have hnot : ¬(500001 : Nat) ≤ threshold := by rw [threshold_eq]; omega
    have h1 : (exportPipeline [] 500001 (List.replicate 500000 wOk ++ [wBad])).logs
        = (mfRun [] (List.replicate 500000 wOk ++ [wBad])).logs :=
      exportPipeline_logs_of_gt [] 500001 (List.replicate 500000 wOk ++ [wBad]) hnot
    have h2 : (mfRun [] (List.replicate 500000 wOk ++ [wBad])).logs
        = [⟨(List.replicate 500000 wOk).length % splitSize, [], wBad.row⟩] :=
      mfRun_oneBad_logs [] (List.replicate 500000 wOk) [] wBad
        (fun r hr => by rw [List.eq_of_mem_replicate hr]; rfl)
        (fun r hr => absurd hr (List.not_mem_nil r)) rfl
    have h3 : (List.replicate 500000 wOk).length = 500000 :=
      List.length_replicate 500000 wOk
    have h4 : (500000 : Nat) % splitSize = 100000 := by rw [splitSize_eq]
    rw [h1, h2, h3, h4]
    rfl
  · omega

end SqlExport
